import Mathlib

/-!
Verification of the frame-renderer / media-synchronizer core of the
video-header generator (`App.tsx`, the variant with video slots and the
`t7` final fade).

The TypeScript source computes with IEEE-754 doubles.  We embed the
numeric domain as exact rationals `ℚ` together with an explicit
`JSVal` type (`num q | posInf | negInf | nan`) for the places where the
source can divide by zero, so that JavaScript's `x / 0` semantics
(`0/0 = NaN`, `pos/0 = +Infinity`) and NaN propagation are preserved.
`Math.sin(x * Math.PI)` is abstracted by a parameter
`sinPi : ℚ → ℚ` (the map `x ↦ sin (π x)` on finite arguments);
non-finite arguments yield `NaN`, as in JavaScript.
-/

/-- JavaScript double values as produced by this program: an exact
rational, one of the two infinities, or NaN. -/
inductive JSVal where
  | num (q : ℚ)
  | posInf
  | negInf
  | nan
deriving DecidableEq, Repr

namespace JSVal

/-- IEEE negation. -/
def neg : JSVal → JSVal
  | num q => num (-q)
  | posInf => negInf
  | negInf => posInf
  | nan => nan

/-- IEEE addition (NaN absorbing, `+∞ + -∞ = NaN`). -/
def add : JSVal → JSVal → JSVal
  | nan, _ => nan
  | _, nan => nan
  | num a, num b => num (a + b)
  | num _, posInf => posInf
  | num _, negInf => negInf
  | posInf, num _ => posInf
  | negInf, num _ => negInf
  | posInf, posInf => posInf
  | negInf, negInf => negInf
  | posInf, negInf => nan
  | negInf, posInf => nan

/-- IEEE subtraction. -/
def sub (a b : JSVal) : JSVal := add a (neg b)

/-- IEEE multiplication (NaN absorbing, `±∞ * 0 = NaN`). -/
def mul : JSVal → JSVal → JSVal
  | nan, _ => nan
  | _, nan => nan
  | num a, num b => num (a * b)
  | num a, posInf => if 0 < a then posInf else if a < 0 then negInf else nan
  | num a, negInf => if 0 < a then negInf else if a < 0 then posInf else nan
  | posInf, num a => if 0 < a then posInf else if a < 0 then negInf else nan
  | negInf, num a => if 0 < a then negInf else if a < 0 then posInf else nan
  | posInf, posInf => posInf
  | posInf, negInf => negInf
  | negInf, posInf => negInf
  | negInf, negInf => posInf

/-- IEEE `<` (false whenever an operand is NaN). -/
def lt : JSVal → JSVal → Bool
  | nan, _ => false
  | _, nan => false
  | num a, num b => a < b
  | num _, posInf => true
  | num _, negInf => false
  | posInf, _ => false
  | negInf, negInf => false
  | negInf, _ => true

/-- `Math.min` (NaN absorbing). -/
def jsMin : JSVal → JSVal → JSVal
  | nan, _ => nan
  | _, nan => nan
  | num a, num b => num (min a b)
  | negInf, _ => negInf
  | _, negInf => negInf
  | posInf, b => b
  | a, posInf => a

/-- `Math.max` (NaN absorbing). -/
def jsMax : JSVal → JSVal → JSVal
  | nan, _ => nan
  | _, nan => nan
  | num a, num b => num (max a b)
  | posInf, _ => posInf
  | _, posInf => posInf
  | negInf, b => b
  | a, negInf => a

/-- `Math.abs`. -/
def abs : JSVal → JSVal
  | num q => num |q|
  | nan => nan
  | _ => posInf

/-- `Math.pow (·, 3)` as used by the entry easing. -/
def pow3 (v : JSVal) : JSVal := mul v (mul v v)

end JSVal

/-- Division of two finite doubles, with JavaScript's zero-denominator
behaviour.  Every division in the source has finite operands; the
denominators are user-configured durations, hence non-negative, so a
zero denominator behaves as `+0`. -/
def jsDiv (a b : ℚ) : JSVal :=
  if b ≠ 0 then .num (a / b)
  else if 0 < a then .posInf
  else if a < 0 then .negInf
  else .nan

/-- `Math.sin (x * Math.PI)` lifted to `JSVal`: `sinPi` is the abstract
real sine of `π ·` on finite arguments; infinite or NaN arguments give
NaN, as in JavaScript. -/
def jsSinPi (sinPi : ℚ → ℚ) : JSVal → JSVal
  | .num q => .num (sinPi q)
  | _ => .nan

/-- Truncation toward zero, the rounding used by JavaScript's `%`. -/
def ratTrunc (q : ℚ) : ℤ := if 0 ≤ q then ⌊q⌋ else ⌈q⌉

/-- JavaScript's remainder operator `a % b` for finite operands and
`b ≠ 0`: the result has the sign of the dividend. -/
def jsMod (a b : ℚ) : ℚ := a - b * ratTrunc (a / b)

theorem jsMod_nonneg_lt (a b : ℚ) (ha : 0 ≤ a) (hb : 0 < b) :
    0 ≤ jsMod a b ∧ jsMod a b < b := by
  have hdiv : (0 : ℚ) ≤ a / b := div_nonneg ha hb.le
  have htr : ratTrunc (a / b) = ⌊a / b⌋ := by simp [ratTrunc, hdiv]
  have hfr : jsMod a b = b * Int.fract (a / b) := by
    rw [jsMod, htr, Int.fract]
    field_simp
  constructor
  · rw [hfr]; exact mul_nonneg hb.le (Int.fract_nonneg _)
  · rw [hfr]
    calc b * Int.fract (a / b) < b * 1 :=
          (mul_lt_mul_left hb).mpr (Int.fract_lt_one _)
    _ = b := mul_one b

theorem jsMod_neg_le (a b : ℚ) (ha : a < 0) (hb : 0 < b) :
    -b < jsMod a b ∧ jsMod a b ≤ 0 := by
  have hdiv : a / b < 0 := div_neg_of_neg_of_pos ha hb
  have htr : ratTrunc (a / b) = ⌈a / b⌉ := by
    simp [ratTrunc, not_le.mpr hdiv]
  have hle : a / b ≤ ⌈a / b⌉ := Int.le_ceil _
  have hlt : (⌈a / b⌉ : ℚ) < a / b + 1 := Int.ceil_lt_add_one _
  constructor
  · rw [jsMod, htr]
    have : b * (⌈a / b⌉ : ℚ) < b * (a / b + 1) := (mul_lt_mul_left hb).mpr hlt
    have hb' : b * (a / b) = a := by field_simp
    nlinarith
  · rw [jsMod, htr]
    have : b * (a / b) ≤ b * (⌈a / b⌉ : ℚ) := (mul_le_mul_left hb).mpr hle
    have hb' : b * (a / b) = a := by field_simp
    nlinarith

/-! ## Data model (`types.ts`) -/

/-- `TimingConfig`: the eight phase durations, in seconds. -/
structure TimingConfig where
  t1 : ℚ
  t2 : ℚ
  t3 : ℚ
  t4 : ℚ
  tHold : ℚ
  t5 : ℚ
  t6 : ℚ
  t7 : ℚ
deriving DecidableEq, Repr

/-- `AnimationConfig.fadeColor`. -/
inductive FadeColor where
  | black
  | white
deriving DecidableEq, Repr

/-- `AnimationConfig`. -/
structure AnimationConfig where
  bounceScale : ℚ
  fadeColor : FadeColor
deriving DecidableEq, Repr

/-- `totalDuration` (App.tsx line 138): the sum of every `TimingConfig`
field. -/
def totalDuration (tc : TimingConfig) : ℚ :=
  tc.t1 + tc.t2 + tc.t3 + tc.t4 + tc.tHold + tc.t5 + tc.t6 + tc.t7

/-- `totalFrames = Math.ceil(totalDuration * FPS)` (line 216). -/
def totalFramesOf (tc : TimingConfig) (fps : ℕ) : ℕ :=
  (⌈totalDuration tc * (fps : ℚ)⌉).toNat

/-! ## Media Synchronizer (`seekVideo`, lines 260–292) -/

/-- `endTime || video.duration` (line 262): an `endTime` of `undefined`
or `0` is falsy and falls back to the source duration. -/
def effectiveEndPre (endTime : Option ℚ) (duration : JSVal) : JSVal :=
  match endTime with
  | some q => if q = 0 then duration else .num q
  | none => duration

/-- Lines 262–267: the effective end of the trim window, replaced by
`startTime + 60` when it is `Infinity` or `NaN`.  (JavaScript's check
`=== Infinity || isNaN` would let `-Infinity` through; durations are
never negative, but we keep the exact behaviour.) -/
def effectiveEnd (endTime : Option ℚ) (duration : JSVal) (startTime : ℚ) : JSVal :=
  match effectiveEndPre endTime duration with
  | .posInf => .num (startTime + 60)
  | .nan => .num (startTime + 60)
  | v => v

/-- Lines 269–278: the target source-local time.  `loop` is the
TypeScript `boolean | undefined` parameter; the test is `loop !== false`. -/
def seekTarget (startTime : ℚ) (endTime : Option ℚ) (duration : JSVal)
    (loop : Option Bool) (elapsed : ℚ) : JSVal :=
  let eff := effectiveEnd endTime duration startTime
  let segmentDuration := JSVal.sub eff (.num startTime)
  if JSVal.lt (.num 0) segmentDuration then
    if loop ≠ some false then
      match segmentDuration with
      | .num seg => .num (startTime + jsMod elapsed seg)
      | _ => .nan
    else JSVal.jsMin (.num (startTime + elapsed)) eff
  else .num startTime

/-- Result of one `seekVideo` call: the position the video ends up at
when the promise resolves, and whether a seek was issued. -/
structure SeekResult where
  position : JSVal
  seeked : Bool
deriving DecidableEq, Repr

/-- Lines 280–291: if the current position is already within `0.01` s of
the target the promise resolves immediately without seeking; otherwise
`video.currentTime` is set to the target. -/
def seekVideo (current : ℚ) (startTime : ℚ) (endTime : Option ℚ)
    (duration : JSVal) (loop : Option Bool) (elapsed : ℚ) : SeekResult :=
  let target := seekTarget startTime endTime duration loop elapsed
  if JSVal.lt (JSVal.abs (JSVal.sub (.num current) target)) (.num (1/100)) then
    ⟨.num current, false⟩
  else ⟨target, true⟩

/-- Line 312: the elapsed time handed to the three panel slots,
`ct = t - (t1 + t2)`; panels are sought from `t ≥ t1` onwards
(line 311), so this can be negative during the intro fade. -/
def panelElapsed (tc : TimingConfig) (t : ℚ) : ℚ := t - (tc.t1 + tc.t2)

/-! ## Frame Compositor (`startRecording` frame body, lines 319–439)

The compositor is embedded as the ordered list of drawing operations a
frame issues.  Panel draws are recorded as the `drawPanel` call with its
arguments (index, `xOffset`, `yOffset`, scale); the geometry computed
inside `drawPanel` (lines 348–379) is `drawPanelRect` below. -/

/-- One drawing operation of a frame. -/
inductive DrawOp where
  | clear
  | intro (opacity : JSVal) (kenBurns : JSVal)
  | panel (index : ℕ) (xOff : ℚ) (yOff : ℚ) (scale : JSVal)
  | maskRect (x y w h : JSVal)
  | scrim (alpha : JSVal)
  | textOverlay (alpha : JSVal)
  | finalFade (color : FadeColor) (alpha : JSVal)
deriving DecidableEq, Repr

/-- Width of one collage panel, `1920 / 3` (line 346). -/
def panelWidth : ℚ := 1920 / 3

/-- Natural media dimensions. -/
structure Dims where
  w : ℚ
  h : ℚ
deriving DecidableEq, Repr

/-- A draw-image rectangle. -/
structure Rect where
  x : ℚ
  y : ℚ
  w : ℚ
  h : ℚ
deriving DecidableEq, Repr

/-- `drawPanel` geometry (lines 357–371): cover-fit against the panel,
horizontal pan by `xOff` across the overflow, clip to the panel third. -/
def drawPanelRect (dims : Dims) (index : ℕ) (xOff yOff scale : ℚ) : Rect :=
  let mediaAspect := dims.w / dims.h
  let panelAspect := panelWidth / 1080
  let drawW := if panelAspect < mediaAspect then 1080 * scale * mediaAspect
               else panelWidth * scale
  let drawH := if panelAspect < mediaAspect then 1080 * scale
               else panelWidth * scale / mediaAspect
  let overflowX := drawW - panelWidth
  ⟨(index : ℚ) * panelWidth - overflowX * (xOff / 100),
   (1080 - drawH) / 2 + yOff, drawW, drawH⟩

/-- Line 323: intro opacity, `1` before `t1`, then a linear decay over
`t2` clamped below at `0`. -/
def introOpacity (tc : TimingConfig) (t : ℚ) : JSVal :=
  if t < tc.t1 then .num 1
  else JSVal.jsMax (.num 0) (JSVal.sub (.num 1) (jsDiv (t - tc.t1) tc.t2))

/-- Line 324: the ken-burns zoom `1 + (t / (t1 + t2)) * 0.05`. -/
def kenBurnsScale (tc : TimingConfig) (t : ℚ) : JSVal :=
  JSVal.add (.num 1) (JSVal.mul (jsDiv t (tc.t1 + tc.t2)) (.num (1/20)))

/-- Lines 322–342: the intro block, active while `t < t1 + t2`. -/
def introOps (tc : TimingConfig) (t : ℚ) : List DrawOp :=
  if t < tc.t1 + tc.t2 then [.intro (introOpacity tc t) (kenBurnsScale tc t)]
  else []

/-- Lines 382–387: the staggered bounce scale.  `bt = ct - t3 - delay`,
`bDur = t4 / 3`; outside `[0, bDur]` the scale is `1`, inside it is
`1 + sin((bt / bDur) π) * (bounceScale - 1)`. -/
def getBounce (sinPi : ℚ → ℚ) (tc : TimingConfig) (an : AnimationConfig)
    (ct delay : ℚ) : JSVal :=
  let bt := ct - tc.t3 - delay
  let bDur := tc.t4 / 3
  if bt < 0 ∨ bDur < bt then .num 1
  else JSVal.add (.num 1)
    (JSVal.mul (jsSinPi sinPi (jsDiv bt bDur)) (.num (an.bounceScale - 1)))

/-- Lines 344–428: the collage block, active from `t ≥ t1 + t2`:
entry (panels at scale 1 behind three shrinking black masks) or bounce
(panels at their staggered bounce scales), then the overlay scrim and
text once `ot = ct - t3 - t4 - tHold` is positive. -/
def collageOps (sinPi : ℚ → ℚ) (tc : TimingConfig) (an : AnimationConfig)
    (xb xc xd : ℚ) (t : ℚ) : List DrawOp :=
  if tc.t1 + tc.t2 ≤ t then
    let ct := t - (tc.t1 + tc.t2)
    let entryProgress := JSVal.jsMin (jsDiv ct tc.t3) (.num 1)
    let body :=
      if ct < tc.t3 then
        let ease := JSVal.sub (.num 1) (JSVal.pow3 (JSVal.sub (.num 1) entryProgress))
        let offset := JSVal.mul (.num panelWidth) (JSVal.sub (.num 1) ease)
        [DrawOp.panel 0 xb 0 (.num 1),
         DrawOp.panel 1 xc 0 (.num 1),
         DrawOp.panel 2 xd 0 (.num 1),
         DrawOp.maskRect (.num 0) (.num 0) offset (.num 1080),
         DrawOp.maskRect (.num panelWidth) (.num 0) (.num panelWidth)
           (JSVal.mul (.num 1080) (JSVal.sub (.num 1) ease)),
         DrawOp.maskRect (JSVal.sub (.num 1920) offset) (.num 0) offset (.num 1080)]
      else
        [DrawOp.panel 0 xb 0 (getBounce sinPi tc an ct 0),
         DrawOp.panel 1 xc 0 (getBounce sinPi tc an ct (tc.t4 / 3)),
         DrawOp.panel 2 xd 0 (getBounce sinPi tc an ct (tc.t4 / 3 * 2))]
    let ot := ct - tc.t3 - tc.t4 - tc.tHold
    let overlay :=
      if 0 < ot then
        let ov := JSVal.jsMin (jsDiv ot tc.t5) (.num 1)
        [DrawOp.scrim (JSVal.mul ov (.num (2/5))), DrawOp.textOverlay ov]
      else []
    body ++ overlay
  else []

/-- Lines 430–439: the final fade, drawn for `t > totalDuration - t7`
with opacity `Math.min((t - fadeOutStartTime) / t7, 1)`. -/
def fadeOps (tc : TimingConfig) (an : AnimationConfig) (t : ℚ) : List DrawOp :=
  let fadeOutStartTime := totalDuration tc - tc.t7
  if fadeOutStartTime < t then
    [.finalFade an.fadeColor
      (JSVal.jsMin (jsDiv (t - fadeOutStartTime) tc.t7) (.num 1))]
  else []

/-- One full frame, in draw order: clear to black (lines 319–320), the
intro block, the collage block, the final fade. -/
def renderFrame (sinPi : ℚ → ℚ) (tc : TimingConfig) (an : AnimationConfig)
    (xb xc xd : ℚ) (t : ℚ) : List DrawOp :=
  DrawOp.clear :: (introOps tc t ++ collageOps sinPi tc an xb xc xd t ++ fadeOps tc an t)

/-- Recognizer for final-fade operations. -/
def DrawOp.isFinalFade : DrawOp → Bool
  | .finalFade _ _ => true
  | _ => false

/-- Recognizer for panel draws. -/
def DrawOp.isPanel : DrawOp → Bool
  | .panel _ _ _ _ => true
  | _ => false

/-! ## Render Loop / progress / cancellation (lines 294–493) -/

/-- Terminal pipeline status (the `renderStatus` state). -/
inductive RenderStatus where
  | idle
  | rendering
  | completed
  | error
deriving DecidableEq, Repr

/-- The only exception thrown by the loop body that we model: the
user-initiated stop (line 296). -/
inductive LoopError where
  | userStop
deriving DecidableEq, Repr

/-- The cancellation flag (`stopRequestedRef`): it only ever transitions
false → true, so it is modelled by the first iteration index at which it
reads true (`none` = never set). -/
def flagSet (cancelAt : Option ℕ) (frame : ℕ) : Bool :=
  match cancelAt with
  | some k => k ≤ frame
  | none => false

/-- Lines 294–447, abstracted to control flow: process the given frames
in order; at each iteration first check the stop flag and throw if set,
otherwise encode the frame.  Returns the number of frames encoded, or on
abort the error together with the number encoded before it. -/
def processFrames (cancelAt : Option ℕ) : List ℕ → Except (LoopError × ℕ) ℕ
  | [] => .ok 0
  | f :: fs =>
    if flagSet cancelAt f then .error (.userStop, 0)
    else
      match processFrames cancelAt fs with
      | .ok n => .ok (n + 1)
      | .error (e, n) => .error (e, n + 1)

/-- Observable outcome of one `startRecording` run. -/
structure RenderResult where
  status : RenderStatus
  hasOutput : Bool
  mediaReleased : Bool
  framesEncoded : ℕ
deriving DecidableEq, Repr

/-- The `startRecording` control flow around the loop: frames
`0 .. totalFrames` inclusive (line 294); on normal completion the muxer
buffer becomes the downloadable result and status is `completed`
(lines 449–464); the user-stop exception is caught and maps to `idle`
with no output (lines 466–469); media resources are released in the
`finally` block in every case (lines 481–493). -/
def startRecordingRun (cancelAt : Option ℕ) (totalFrames : ℕ) : RenderResult :=
  match processFrames cancelAt (List.range (totalFrames + 1)) with
  | .ok n => ⟨.completed, true, true, n⟩
  | .error (.userStop, n) => ⟨.idle, false, true, n⟩

/-- Lines 300–302: progress is reported every 5th frame and on the final
frame, as `(frame / totalFrames) * 100`. -/
def reportedFrames (totalFrames : ℕ) : List ℕ :=
  (List.range (totalFrames + 1)).filter (fun f => f % 5 = 0 ∨ f = totalFrames)

/-- The progress value reported at one frame. -/
def progressAt (totalFrames f : ℕ) : JSVal :=
  JSVal.mul (jsDiv (f : ℚ) (totalFrames : ℚ)) (.num 100)

/-- The sequence of progress values reported during one render. -/
def progressReports (totalFrames : ℕ) : List JSVal :=
  (reportedFrames totalFrames).map (progressAt totalFrames)

/-- A reported value is a percentage: a finite number in `[0, 100]`. -/
def inPercentRange (v : JSVal) : Prop :=
  match v with
  | .num q => 0 ≤ q ∧ q ≤ 100
  | _ => False

instance (v : JSVal) : Decidable (inPercentRange v) := by
  unfold inPercentRange
  cases v <;> infer_instance

/-- Comparison of two reported values: both finite and non-decreasing. -/
def jsLe (a b : JSVal) : Prop :=
  match a, b with
  | .num x, .num y => x ≤ y
  | _, _ => False

instance (a b : JSVal) : Decidable (jsLe a b) := by
  unfold jsLe
  cases a <;> cases b <;> infer_instance

/-! ## Helper lemmas on the synchronizer -/

theorem effectiveEnd_some (e : ℚ) (d : JSVal) (s : ℚ) (he : e ≠ 0) :
    effectiveEnd (some e) d s = .num e := by
  simp [effectiveEnd, effectiveEndPre, he]

theorem JSVal.sub_num (a b : ℚ) : JSVal.sub (.num a) (.num b) = .num (a - b) := by
  simp [JSVal.sub, JSVal.add, JSVal.neg, sub_eq_add_neg]

theorem JSVal.lt_num (a b : ℚ) : JSVal.lt (.num a) (.num b) = decide (a < b) := rfl

/-- `seekTarget` unfolded, once the effective end is known to be finite. -/
theorem seekTarget_eq_of_eff (s : ℚ) (et : Option ℚ) (d : JSVal)
    (lp : Option Bool) (el : ℚ) (e' : ℚ)
    (heff : effectiveEnd et d s = .num e') :
    seekTarget s et d lp el =
      if 0 < e' - s then
        if lp ≠ some false then .num (s + jsMod el (e' - s))
        else .num (min (s + el) e')
      else .num s := by
  simp only [seekTarget, heff, JSVal.sub_num, JSVal.lt_num]
  by_cases h : 0 < e' - s
  · by_cases hlp : lp = some false
    · simp [h, hlp, JSVal.jsMin]
    · simp [h, hlp]
  · simp [h]

/-- The spec's concrete seek scenario, shared by several results:
`startTime = 5`, `endTime = 10`, looping, `elapsed = 7` targets `7`
(for any source duration). -/
theorem seekTarget_five_ten_loop_seven (d : JSVal) :
    seekTarget 5 (some 10) d (some true) 7 = .num 7 := by
  rw [seekTarget_eq_of_eff 5 (some 10) d (some true) 7 10
    (effectiveEnd_some 10 d 5 (by norm_num))]
  norm_num [jsMod, ratTrunc]

/-! ## C1 -/

/-- C1: for a finite, non-zero `endTime` forming a positive trim window,
the synchronizer computes `target = startTime + (elapsed mod
segmentDuration)` when `loop` is enabled (`loop !== false`, the
default), and `target = min(startTime + elapsed, endTime)` when `loop`
is `false`; in particular `startTime = 5`, `endTime = 10`, `loop = true`,
`elapsed = 7` gives target `7`. -/
theorem seekTarget_formula (s e : ℚ) (d : JSVal) (lp : Option Bool) (el : ℚ)
    (he : e ≠ 0) (hs : s < e) :
    (lp ≠ some false →
      seekTarget s (some e) d lp el = .num (s + jsMod el (e - s))) ∧
    seekTarget s (some e) d (some false) el = .num (min (s + el) e) ∧
    seekTarget 5 (some 10) d (some true) 7 = .num 7 := by
  have heff := effectiveEnd_some e d s he
  have hpos : 0 < e - s := by linarith
  refine ⟨fun hlp => ?_, ?_, ?_⟩
  · rw [seekTarget_eq_of_eff s (some e) d lp el e heff]
    simp [hpos, hlp]
  · rw [seekTarget_eq_of_eff s (some e) d (some false) el e heff]
    simp [hpos]
  · exact seekTarget_five_ten_loop_seven d

/-- Witness for C1 at the spec's concrete scenario. -/
theorem seekTarget_formula_witness :
    seekTarget 5 (some 10) (.num 30) (some true) 7 = .num 7 :=
  (seekTarget_formula 5 10 (.num 30) (some true) 7 (by norm_num) (by norm_num)).2.2

/-! ## C2 -/

/-- Counterexample to C2 as stated: at frame 68 of a 30 fps render with
`t1 = 2`, `t2 = 0.5` the loop seeks the panel slots (since
`t = 68/30 ≥ t1`) with the negative elapsed time `ct = t - (t1 + t2) =
-7/30`; for a looping slot trimmed to `[5, 10]` the computed target is
`5 + ((-7/30) % 5) = 143/30 < 5`, outside `[startTime, endTime)`. -/
theorem seekTarget_loop_escapes_window :
    (2 : ℚ) ≤ 34/15 ∧
    panelElapsed ⟨2, 1/2, 1/2, 3/2, 1, 1, 5/2, 1⟩ (34/15) = -7/30 ∧
    seekTarget 5 (some 10) (.num 30) (some true) (-7/30) = .num (143/30) ∧
    ¬ ((5 : ℚ) ≤ 143/30) := by
  refine ⟨by norm_num, by norm_num [panelElapsed], ?_, by norm_num⟩
  rw [seekTarget_eq_of_eff 5 (some 10) (.num 30) (some true) (-7/30) 10
    (effectiveEnd_some 10 (.num 30) 5 (by norm_num))]
  have hceil : ⌈(-(7/150) : ℚ)⌉ = 0 := by
    rw [Int.ceil_eq_zero_iff]
    constructor <;> norm_num
  norm_num [jsMod, ratTrunc]
  rw [hceil]
  norm_num

/-- C2 as amended: over a positive trim window, a non-looping target
never exceeds the effective end time (for every elapsed value), and a
looping target lies in `[startTime, endTime)` whenever the elapsed time
is non-negative — which holds whenever the slot is actually composited
(`t ≥ t1 + t2`); for the negative elapsed values produced during the
intro-fade window (when the panels are not drawn) a looping target lies
in `(startTime - segmentDuration, startTime]`. -/
theorem seekTarget_bounds (s el : ℚ) (et : Option ℚ) (d : JSVal)
    (lp : Option Bool) (e' : ℚ)
    (heff : effectiveEnd et d s = .num e') (hseg : s < e') :
    (∃ q, seekTarget s et d (some false) el = .num q ∧ q ≤ e') ∧
    (lp ≠ some false → 0 ≤ el →
      ∃ q, seekTarget s et d lp el = .num q ∧ s ≤ q ∧ q < e') ∧
    (lp ≠ some false → el < 0 →
      ∃ q, seekTarget s et d lp el = .num q ∧ s - (e' - s) < q ∧ q ≤ s) := by
  have hpos : 0 < e' - s := by linarith
  refine ⟨?_, fun hlp hel => ?_, fun hlp hel => ?_⟩
  · rw [seekTarget_eq_of_eff s et d (some false) el e' heff]
    simp only [if_pos hpos]
    exact ⟨min (s + el) e', by simp, min_le_right _ _⟩
  · rw [seekTarget_eq_of_eff s et d lp el e' heff]
    simp only [if_pos hpos, if_pos hlp]
    obtain ⟨h1, h2⟩ := jsMod_nonneg_lt el (e' - s) hel hpos
    exact ⟨s + jsMod el (e' - s), rfl, by linarith, by linarith⟩
  · rw [seekTarget_eq_of_eff s et d lp el e' heff]
    simp only [if_pos hpos, if_pos hlp]
    obtain ⟨h1, h2⟩ := jsMod_neg_le el (e' - s) hel hpos
    exact ⟨s + jsMod el (e' - s), rfl, by linarith, by linarith⟩

/-- Witness for C2's amended bounds at a concrete looping slot. -/
theorem seekTarget_bounds_witness :
    ∃ q, seekTarget 5 (some 10) (.num 30) (some true) 7 = .num q ∧
      5 ≤ q ∧ q < 10 :=
  (seekTarget_bounds 5 7 (some 10) (.num 30) (some true) 10
    (effectiveEnd_some 10 (.num 30) 5 (by norm_num)) (by norm_num)).2.1
    (by simp) (by norm_num)

/-! ## C9 -/

/-- C9: the per-frame readiness wait is tolerance-based.  If the video's
current position is already within `0.01` s of the computed target the
synchronizer resolves immediately without seeking (leaving the position
unchanged); otherwise it seeks exactly to the target.  Hence the
position actually sampled always differs from the computed target by
strictly less than `0.01` s. -/
theorem seekVideo_tolerance (c s : ℚ) (et : Option ℚ) (d : JSVal)
    (lp : Option Bool) (el q : ℚ)
    (htar : seekTarget s et d lp el = .num q) :
    (|c - q| < 1/100 → seekVideo c s et d lp el = ⟨.num c, false⟩) ∧
    (1/100 ≤ |c - q| → seekVideo c s et d lp el = ⟨.num q, true⟩) ∧
    ∃ p, (seekVideo c s et d lp el).position = .num p ∧ |p - q| < 1/100 := by
  simp only [seekVideo, htar, JSVal.sub_num, JSVal.abs, JSVal.lt_num,
    decide_eq_true_eq]
  by_cases h : |c - q| < 1/100
  · rw [if_pos h]
    exact ⟨fun _ => rfl, fun h' => absurd h (not_lt.mpr h'), c, rfl, h⟩
  · rw [if_neg h]
    exact ⟨fun h' => absurd h' h, fun _ => rfl, q, rfl,
      by rw [sub_self, abs_zero]; norm_num⟩

/-- Witness for C9: a position `0.001` s from the target resolves
without a seek. -/
theorem seekVideo_tolerance_witness :
    seekVideo (6999/1000) 5 (some 10) (.num 30) (some true) 7 =
      ⟨.num (6999/1000), false⟩ :=
  (seekVideo_tolerance (6999/1000) 5 (some 10) (.num 30) (some true) 7 7
    (seekTarget_five_ten_loop_seven (.num 30))).1
    (by rw [abs_of_neg] <;> norm_num)

/-! ## C10 -/

/-- C10: an unset (`undefined`) or `0` `endTime` falls back to the
source duration; an infinite or NaN duration falls back to
`startTime + 60`; and whenever the resulting segment duration is not
strictly positive the target is exactly `startTime` (so the modulo of
the looping branch is never taken on an empty or inverted window). -/
theorem seekTarget_defaults (s el : ℚ) (q : ℚ) (et : Option ℚ) (d : JSVal)
    (lp : Option Bool) :
    effectiveEnd none (.num q) s = .num q ∧
    effectiveEnd (some 0) (.num q) s = .num q ∧
    effectiveEnd none .posInf s = .num (s + 60) ∧
    effectiveEnd none .nan s = .num (s + 60) ∧
    effectiveEnd (some 0) .posInf s = .num (s + 60) ∧
    effectiveEnd (some 0) .nan s = .num (s + 60) ∧
    (∀ e', effectiveEnd et d s = .num e' → e' ≤ s →
      seekTarget s et d lp el = .num s) := by
  refine ⟨by simp [effectiveEnd, effectiveEndPre],
    by simp [effectiveEnd, effectiveEndPre],
    by simp [effectiveEnd, effectiveEndPre],
    by simp [effectiveEnd, effectiveEndPre],
    by simp [effectiveEnd, effectiveEndPre],
    by simp [effectiveEnd, effectiveEndPre],
    fun e' heff he' => ?_⟩
  rw [seekTarget_eq_of_eff s et d lp el e' heff]
  simp [show ¬ (0 < e' - s) by linarith]

/-- Witness for C10: an inverted trim window (`endTime = 3 < startTime
= 5`) yields target exactly `startTime`. -/
theorem seekTarget_defaults_witness :
    seekTarget 5 (some 3) (.num 30) (some true) 7 = .num 5 :=
  (seekTarget_defaults 5 7 30 (some 3) (.num 30) (some true)).2.2.2.2.2.2 3
    (effectiveEnd_some 3 (.num 30) 5 (by norm_num)) (by norm_num)

/-! ## C3 -/

/-- Processing the frames `s, s+1, …, s+len-1` with the stop flag set
from iteration `k` on: if `k` falls before the end, the loop aborts at
iteration `max s k` having encoded the earlier frames; otherwise it
completes all `len` frames. -/
theorem processFrames_range' (k : ℕ) :
    ∀ (len s : ℕ),
      processFrames (some k) (List.range' s len) =
        if 0 < len ∧ k < s + len then .error (.userStop, k - s)
        else .ok len := by
  intro len
  induction len with
  | zero => intro s; simp [processFrames, List.range']
  | succ n ih =>
    intro s
    rw [List.range'_succ]
    by_cases hks : k ≤ s
    · have hc : 0 < n + 1 ∧ k < s + (n + 1) := by omega
      have hsub : k - s = 0 := by omega
      simp [processFrames, flagSet, hks, hc, hsub]
    · have hflag : flagSet (some k) s = false := by
        simp [flagSet]; omega
      rw [processFrames, hflag]
      simp only [Bool.false_eq_true, if_false, ih (s + 1)]
      by_cases hk : k < s + (n + 1)
      · have hn : 0 < n := by omega
        have hk' : k < s + 1 + n := by omega
        have hs : k - (s + 1) + 1 = k - s := by omega
        simp [hk, hk', hn, hs]
      · have hk' : ¬ k < s + 1 + n := by omega
        simp [hk, hk']

/-- C3: if the cancellation flag is set before frame iteration
`k ≤ totalFrames`, the render aborts at that iteration's check (having
encoded exactly the `k` earlier frames), ends with status `idle` — not
`error` —, produces no output buffer, and releases all media
resources. -/
theorem cancellation_aborts (k totalFrames : ℕ) (hk : k ≤ totalFrames) :
    startRecordingRun (some k) totalFrames =
      ⟨.idle, false, true, k⟩ := by
  rw [startRecordingRun, List.range_eq_range',
    processFrames_range' k (totalFrames + 1) 0]
  have hc : 0 < totalFrames + 1 ∧ k < 0 + (totalFrames + 1) := by omega
  have hlt : k < totalFrames + 1 := by omega
  simp [hc, hlt]

/-- Witness for C3: cancelling before iteration 3 of an 11-frame render. -/
theorem cancellation_aborts_witness :
    startRecordingRun (some 3) 10 = ⟨.idle, false, true, 3⟩ :=
  cancellation_aborts 3 10 (by norm_num)

/-! ## C7 -/

/-- Counterexample to C7 as stated: the all-zero timing configuration is
allowed (every duration may be 0), gives `totalFrames = 0`, and then the
single report of the render loop is `(0 / 0) * 100 = NaN`, which is not
a percentage between 0 and 100. -/
theorem progress_nan_on_empty_render :
    totalFramesOf ⟨0, 0, 0, 0, 0, 0, 0, 0⟩ 30 = 0 ∧
    progressReports 0 = [JSVal.nan] ∧
    ¬ inPercentRange JSVal.nan := by
  refine ⟨?_, by decide, by decide⟩
  simp [totalFramesOf, totalDuration]

/-- C7 as amended: for every render with at least one frame interval
(`totalFrames ≥ 1`), every reported progress value is a number in
`[0, 100]`, successive reports are non-decreasing, and the last report —
made at `frame = totalFrames` — is exactly 100.  (For the degenerate
`totalFrames = 0` render the single report is `NaN`.) -/
theorem progress_reports_valid (T : ℕ) (hT : 0 < T) :
    (∀ v ∈ progressReports T, inPercentRange v) ∧
    (progressReports T).Pairwise jsLe ∧
    (progressReports T).getLast? = some (.num 100) := by
  have hTQ : (T : ℚ) ≠ 0 := Nat.cast_ne_zero.mpr hT.ne'
  have hTQ0 : (0 : ℚ) < T := by exact_mod_cast hT
  have hprog : ∀ f : ℕ, progressAt T f = .num ((f : ℚ) / T * 100) := by
    intro f
    simp [progressAt, jsDiv, hTQ, JSVal.mul]
  refine ⟨?_, ?_, ?_⟩
  · intro v hv
    rw [progressReports, List.mem_map] at hv
    obtain ⟨f, hf, rfl⟩ := hv
    rw [reportedFrames, List.mem_filter] at hf
    have hfT : f ≤ T := by
      have := List.mem_range.mp hf.1
      omega
    rw [hprog]
    constructor
    · positivity
    · have h1 : (f : ℚ) / T ≤ 1 := by
        rw [div_le_one hTQ0]
        exact_mod_cast hfT
      nlinarith
  · rw [progressReports, List.pairwise_map]
    refine List.Pairwise.imp ?_
      (List.Pairwise.filter _ (List.pairwise_lt_range (T + 1)))
    intro a b hab
    rw [hprog, hprog]
    show ((a : ℚ) / T * 100) ≤ ((b : ℚ) / T * 100)
    have hc : (a : ℚ) ≤ b := by exact_mod_cast hab.le
    have hd : (a : ℚ) / T ≤ (b : ℚ) / T := (div_le_div_iff_of_pos_right hTQ0).mpr hc
    nlinarith
  · rw [progressReports, reportedFrames, List.range_succ, List.filter_append]
    have hfT : List.filter (fun f => decide (f % 5 = 0 ∨ f = T)) [T] = [T] := by
      simp
    rw [hfT, List.map_append]
    simp only [List.map_cons, List.map_nil]
    rw [List.getLast?_concat, hprog T, div_self hTQ]
    norm_num

/-- Witness for C7's amended monotone-progress statement at an 8-frame
render. -/
theorem progress_reports_valid_witness :
    (progressReports 7).Pairwise jsLe ∧
    (progressReports 7).getLast? = some (.num 100) :=
  ⟨(progress_reports_valid 7 (by norm_num)).2.1,
   (progress_reports_valid 7 (by norm_num)).2.2⟩

/-! ## C4 -/

theorem fadeOps_of_lt (tc : TimingConfig) (an : AnimationConfig) (t : ℚ)
    (h : totalDuration tc - tc.t7 < t) :
    fadeOps tc an t =
      [.finalFade an.fadeColor
        (JSVal.jsMin (jsDiv (t - (totalDuration tc - tc.t7)) tc.t7) (.num 1))] := by
  rw [fadeOps]
  simp only [if_pos h]

theorem fadeOps_of_le (tc : TimingConfig) (an : AnimationConfig) (t : ℚ)
    (h : t ≤ totalDuration tc - tc.t7) :
    fadeOps tc an t = [] := by
  rw [fadeOps]
  simp only [if_neg (not_lt.mpr h)]

theorem mem_introOps_not_fade (tc : TimingConfig) (t : ℚ) :
    ∀ op ∈ introOps tc t, op.isFinalFade = false := by
  intro op hop
  rw [introOps] at hop
  split at hop
  · rw [List.mem_singleton] at hop
    subst hop
    rfl
  · exact absurd hop (List.not_mem_nil _)

theorem mem_collageOps_not_fade (sinPi : ℚ → ℚ) (tc : TimingConfig)
    (an : AnimationConfig) (xb xc xd t : ℚ) :
    ∀ op ∈ collageOps sinPi tc an xb xc xd t, op.isFinalFade = false := by
  intro op hop
  simp only [collageOps] at hop
  split at hop
  · rw [List.mem_append] at hop
    rcases hop with h1 | h2
    · split at h1 <;>
        simp only [List.mem_cons, List.not_mem_nil, or_false] at h1
      · rcases h1 with rfl | rfl | rfl | rfl | rfl | rfl <;> rfl
      · rcases h1 with rfl | rfl | rfl <;> rfl
    · split at h2
      · simp only [List.mem_cons, List.not_mem_nil, or_false] at h2
        rcases h2 with rfl | rfl <;> rfl
      · exact absurd h2 (List.not_mem_nil _)
  · exact absurd hop (List.not_mem_nil _)

/-- C4: for `t > totalDuration - t7` the very last drawing operation of
the frame is a full-frame rectangle in `fadeColor` with opacity
`min((t - (totalDuration - t7)) / t7, 1)` (the JavaScript form of the
formula; the third conjunct evaluates it to the exact rational `min`
whenever `t7 > 0`); for `t ≤ totalDuration - t7` the frame contains no
final-fade operation at all. -/
theorem finalFade_spec (sinPi : ℚ → ℚ) (tc : TimingConfig)
    (an : AnimationConfig) (xb xc xd t : ℚ) :
    (totalDuration tc - tc.t7 < t →
      (renderFrame sinPi tc an xb xc xd t).getLast? =
        some (.finalFade an.fadeColor
          (JSVal.jsMin (jsDiv (t - (totalDuration tc - tc.t7)) tc.t7) (.num 1)))) ∧
    (t ≤ totalDuration tc - tc.t7 →
      ∀ op ∈ renderFrame sinPi tc an xb xc xd t, op.isFinalFade = false) ∧
    (0 < tc.t7 → totalDuration tc - tc.t7 < t →
      JSVal.jsMin (jsDiv (t - (totalDuration tc - tc.t7)) tc.t7) (.num 1) =
        .num (min ((t - (totalDuration tc - tc.t7)) / tc.t7) 1)) := by
  refine ⟨fun h => ?_, fun h op hop => ?_, fun h7 _ => ?_⟩
  · rw [renderFrame, fadeOps_of_lt tc an t h, ← List.cons_append,
      List.getLast?_concat]
  · rw [renderFrame, fadeOps_of_le tc an t h, List.append_nil] at hop
    rw [List.mem_cons] at hop
    rcases hop with rfl | hop
    · rfl
    · rw [List.mem_append] at hop
      rcases hop with hop | hop
      · exact mem_introOps_not_fade tc t op hop
      · exact mem_collageOps_not_fade sinPi tc an xb xc xd t op hop
  · simp [jsDiv, h7.ne', JSVal.jsMin]

/-- Witness for C4 at a concrete frame inside the fade window. -/
theorem finalFade_spec_witness :
    (renderFrame (fun _ => 0) ⟨1, 1, 1, 1, 1, 1, 1, 1⟩ ⟨27/25, .black⟩
      20 50 80 (15/2)).getLast? =
      some (.finalFade .black (.num (1/2))) := by
  have h := (finalFade_spec (fun _ => 0) ⟨1, 1, 1, 1, 1, 1, 1, 1⟩
    ⟨27/25, .black⟩ 20 50 80 (15/2)).1 (by norm_num [totalDuration])
  rw [h]
  norm_num [totalDuration, jsDiv, JSVal.jsMin, min_def]

/-! ## C5 -/

theorem filter_panel_introOps (tc : TimingConfig) (t : ℚ) :
    (introOps tc t).filter DrawOp.isPanel = [] := by
  rw [introOps]
  split <;> rfl

theorem filter_panel_fadeOps (tc : TimingConfig) (an : AnimationConfig) (t : ℚ) :
    (fadeOps tc an t).filter DrawOp.isPanel = [] := by
  rw [fadeOps]
  split <;> rfl

/-- C5: from `ct ≥ t3` on, the three panels are drawn with the bounce
scales `getBounce 0`, `getBounce (t4/3)`, `getBounce (2·t4/3)` — the
staggered delays `0, t4/3, 2·t4/3` over windows of length `t4/3`
measured from collage-local time `t3`; outside its own bump window
(`bt < 0` or `bt > t4/3`) a panel's scale is exactly `1`, and inside it
(for `t4 > 0`) the scale is the sine bump
`1 + sin(π·bt/(t4/3))·(bounceScale - 1)` of amplitude
`bounceScale - 1`. -/
theorem bounce_spec (sinPi : ℚ → ℚ) (tc : TimingConfig) (an : AnimationConfig)
    (xb xc xd t : ℚ) (h3 : 0 ≤ tc.t3) (h : tc.t1 + tc.t2 + tc.t3 ≤ t) :
    ((renderFrame sinPi tc an xb xc xd t).filter DrawOp.isPanel =
      [.panel 0 xb 0 (getBounce sinPi tc an (t - (tc.t1 + tc.t2)) 0),
       .panel 1 xc 0 (getBounce sinPi tc an (t - (tc.t1 + tc.t2)) (tc.t4 / 3)),
       .panel 2 xd 0 (getBounce sinPi tc an (t - (tc.t1 + tc.t2)) (tc.t4 / 3 * 2))]) ∧
    (∀ ct delay : ℚ,
      ct - tc.t3 - delay < 0 ∨ tc.t4 / 3 < ct - tc.t3 - delay →
      getBounce sinPi tc an ct delay = .num 1) ∧
    (0 < tc.t4 → ∀ ct delay : ℚ,
      0 ≤ ct - tc.t3 - delay → ct - tc.t3 - delay ≤ tc.t4 / 3 →
      getBounce sinPi tc an ct delay =
        .num (1 + sinPi ((ct - tc.t3 - delay) / (tc.t4 / 3)) *
          (an.bounceScale - 1))) := by
  refine ⟨?_, fun ct delay hout => ?_, fun h4 ct delay hlo hhi => ?_⟩
  · have houter : tc.t1 + tc.t2 ≤ t := by linarith
    have hct : ¬ (t - (tc.t1 + tc.t2) < tc.t3) := by
      rw [not_lt]
      linarith
    rw [renderFrame, List.filter_cons_of_neg (by decide), List.filter_append,
      List.filter_append, filter_panel_introOps, filter_panel_fadeOps,
      List.nil_append, List.append_nil]
    simp only [collageOps, if_pos houter, if_neg hct]
    rw [List.filter_append]
    have hoverlay :
        (if 0 < t - (tc.t1 + tc.t2) - tc.t3 - tc.t4 - tc.tHold then
          [DrawOp.scrim
            (JSVal.mul
              (JSVal.jsMin (jsDiv (t - (tc.t1 + tc.t2) - tc.t3 - tc.t4 - tc.tHold) tc.t5)
                (.num 1)) (.num (2/5))),
           DrawOp.textOverlay
            (JSVal.jsMin (jsDiv (t - (tc.t1 + tc.t2) - tc.t3 - tc.t4 - tc.tHold) tc.t5)
              (.num 1))]
        else ([] : List DrawOp)).filter DrawOp.isPanel = [] := by
      split <;> rfl
    rw [hoverlay, List.append_nil]
    rfl
  · rw [getBounce]
    simp only [if_pos hout]
  · have hne : tc.t4 / 3 ≠ 0 := by positivity
    have hnot : ¬ (ct - tc.t3 - delay < 0 ∨ tc.t4 / 3 < ct - tc.t3 - delay) := by
      push_neg
      exact ⟨hlo, hhi⟩
    rw [getBounce]
    simp only [if_neg hnot, jsDiv, hne, if_pos, jsSinPi, JSVal.mul, JSVal.add,
      ne_eq, not_false_eq_true, ite_true]

/-- Witness for C5: at `ct = 1.5` with `t3 = 0.5`, `t4 = 1.5` every
panel's bump window is over or at its boundary, so all three scales are
1 (with the zero sine sample). -/
theorem bounce_spec_witness :
    (renderFrame (fun _ => 0) ⟨2, 1/2, 1/2, 3/2, 1, 1, 5/2, 0⟩
      ⟨27/25, .black⟩ 20 50 80 4).filter DrawOp.isPanel =
      [.panel 0 20 0 (.num 1), .panel 1 50 0 (.num 1),
       .panel 2 80 0 (.num 1)] := by
  have h := (bounce_spec (fun _ => 0) ⟨2, 1/2, 1/2, 3/2, 1, 1, 5/2, 0⟩
    ⟨27/25, .black⟩ 20 50 80 4 (by norm_num) (by norm_num)).1
  rw [h]
  norm_num [getBounce, jsDiv, jsSinPi, JSVal.mul, JSVal.add]

/-! ## C6 -/

/-- C6 fails on the code: with a zero-length bounce phase (`t4 = 0`) the
guard `bt < 0 || bt > bDur` does not catch the boundary point
`bt = bDur = 0`, so at collage time `ct = t3` the bounce scale is
computed as `1 + sin((0/0)·π)·(bounceScale-1) = NaN` — not a value in
any intended range — and all three panels of that frame are drawn with a
NaN scale.  Shown here for the all-zero timing configuration at the
in-range frame time `t = 0` (this holds for every `sinPi`; the zero
function is one instance). -/
theorem getBounce_nan_at_zero_t4 :
    getBounce (fun _ => 0) ⟨0, 0, 0, 0, 0, 0, 0, 0⟩ ⟨27/25, .black⟩ 0 0 =
      .nan ∧
    DrawOp.panel 0 50 0 .nan ∈
      renderFrame (fun _ => 0) ⟨0, 0, 0, 0, 0, 0, 0, 0⟩ ⟨27/25, .black⟩
        50 50 80 0 ∧
    totalDuration ⟨0, 0, 0, 0, 0, 0, 0, 0⟩ = 0 := by
  refine ⟨?_, ?_, by norm_num [totalDuration]⟩
  · norm_num [getBounce, jsDiv, jsSinPi, JSVal.mul, JSVal.add]
  · simp only [renderFrame, introOps, collageOps, fadeOps, totalDuration]
    norm_num [getBounce, jsDiv, jsSinPi, JSVal.mul, JSVal.add, JSVal.jsMin]

/-! ## C8 -/

/-- During the entry phase the collage block draws the three panels at
scale `1` with zero translation (`yOff = 0`, pan `xOffset` unchanged)
and covers the unrevealed edge fractions with three black mask
rectangles sized by `1 - ease`, `ease = 1 - (1 - ct/t3)^3`. -/
theorem collageOps_entry (sinPi : ℚ → ℚ) (tc : TimingConfig)
    (an : AnimationConfig) (xb xc xd t : ℚ)
    (h0 : tc.t1 + tc.t2 ≤ t) (h1 : t - (tc.t1 + tc.t2) < tc.t3)
    (h4 : 0 ≤ tc.t4) (hH : 0 ≤ tc.tHold) :
    collageOps sinPi tc an xb xc xd t =
      [.panel 0 xb 0 (.num 1), .panel 1 xc 0 (.num 1),
       .panel 2 xd 0 (.num 1),
       .maskRect (.num 0) (.num 0)
         (.num (panelWidth * (1 - (1 - (1 - (t - (tc.t1 + tc.t2)) / tc.t3) ^ 3))))
         (.num 1080),
       .maskRect (.num panelWidth) (.num 0) (.num panelWidth)
         (.num (1080 * (1 - (1 - (1 - (t - (tc.t1 + tc.t2)) / tc.t3) ^ 3)))),
       .maskRect
         (.num (1920 - panelWidth * (1 - (1 - (1 - (t - (tc.t1 + tc.t2)) / tc.t3) ^ 3))))
         (.num 0)
         (.num (panelWidth * (1 - (1 - (1 - (t - (tc.t1 + tc.t2)) / tc.t3) ^ 3))))
         (.num 1080)] := by
  have hct0 : 0 ≤ t - (tc.t1 + tc.t2) := by linarith
  have ht3 : 0 < tc.t3 := lt_of_le_of_lt hct0 h1
  have hp1 : (t - (tc.t1 + tc.t2)) / tc.t3 < 1 := (div_lt_one ht3).mpr h1
  have hov : ¬ (0 < t - (tc.t1 + tc.t2) - tc.t3 - tc.t4 - tc.tHold) := by
    push_neg
    linarith
  simp only [collageOps, if_pos h0, if_pos h1, if_neg hov, List.append_nil,
    jsDiv, ht3.ne', ne_eq, not_false_eq_true, ite_true, JSVal.jsMin,
    min_eq_left hp1.le, JSVal.sub, JSVal.neg, JSVal.add, JSVal.pow3,
    JSVal.mul]
  have key : ∀ a : ℚ,
      1 + -(1 + -((1 + -a) * ((1 + -a) * (1 + -a)))) =
        1 - (1 - (1 - a) ^ 3) := by
    intro a
    ring
  have key2 : ∀ a : ℚ, a * (a * a) = a ^ 3 := by
    intro a
    ring
  simp only [key, ← sub_eq_add_neg, key2]

/-- Counterexample to C8 as stated: during the entry phase the panels
are *not* translated.  At the two distinct entry times `t = 13/5` and
`t = 27/10` (entry progress `1/5` and `2/5` of `t3 = 1/2`), the panel
draw calls are identical — index, `xOffset`, `yOffset = 0`, scale 1 —
so no per-panel translation offset depending on the entry easing is
applied; only the black masks move. -/
theorem entry_panels_not_translated :
    ((renderFrame (fun _ => 0) ⟨2, 1/2, 1/2, 3/2, 1, 1, 5/2, 1⟩
        ⟨27/25, .black⟩ 20 50 80 (13/5)).filter DrawOp.isPanel =
      [.panel 0 20 0 (.num 1), .panel 1 50 0 (.num 1),
       .panel 2 80 0 (.num 1)]) ∧
    ((renderFrame (fun _ => 0) ⟨2, 1/2, 1/2, 3/2, 1, 1, 5/2, 1⟩
        ⟨27/25, .black⟩ 20 50 80 (27/10)).filter DrawOp.isPanel =
      [.panel 0 20 0 (.num 1), .panel 1 50 0 (.num 1),
       .panel 2 80 0 (.num 1)]) ∧
    (13/5 : ℚ) ≠ 27/10 ∧
    (2 : ℚ) + 1/2 ≤ 13/5 ∧ (13/5 : ℚ) - (2 + 1/2) < 1/2 ∧
    (2 : ℚ) + 1/2 ≤ 27/10 ∧ (27/10 : ℚ) - (2 + 1/2) < 1/2 := by
  refine ⟨?_, ?_, by norm_num, by norm_num, by norm_num, by norm_num,
    by norm_num⟩
  · have hc := collageOps_entry (fun _ => 0) ⟨2, 1/2, 1/2, 3/2, 1, 1, 5/2, 1⟩
      ⟨27/25, .black⟩ 20 50 80 (13/5) (by norm_num) (by norm_num)
      (by norm_num) (by norm_num)
    have hf : fadeOps ⟨2, 1/2, 1/2, 3/2, 1, 1, 5/2, 1⟩ ⟨27/25, .black⟩
        (13/5) = [] :=
      fadeOps_of_le _ _ _ (by norm_num [totalDuration])
    have hi : introOps ⟨2, 1/2, 1/2, 3/2, 1, 1, 5/2, 1⟩ (13/5) = [] := by
      rw [introOps]
      norm_num
    rw [renderFrame, hc, hf, hi]
    simp [DrawOp.isPanel]
  · have hc := collageOps_entry (fun _ => 0) ⟨2, 1/2, 1/2, 3/2, 1, 1, 5/2, 1⟩
      ⟨27/25, .black⟩ 20 50 80 (27/10) (by norm_num) (by norm_num)
      (by norm_num) (by norm_num)
    have hf : fadeOps ⟨2, 1/2, 1/2, 3/2, 1, 1, 5/2, 1⟩ ⟨27/25, .black⟩
        (27/10) = [] :=
      fadeOps_of_le _ _ _ (by norm_num [totalDuration])
    have hi : introOps ⟨2, 1/2, 1/2, 3/2, 1, 1, 5/2, 1⟩ (27/10) = [] := by
      rw [introOps]
      norm_num
    rw [renderFrame, hc, hf, hi]
    simp [DrawOp.isPanel]

/-- C8 as amended: during the entry phase (`0 ≤ ct < t3`) the compositor
computes `ease = 1 - (1 - ct/t3)^3` and draws the three panels at their
final positions (scale 1, `yOffset = 0`, pan `xOffset` unchanged — no
per-panel translation), achieving the sliding reveal solely with three
black mask rectangles proportional to `1 - ease`: a left mask of width
`panelWidth·(1-ease)` over panel B, a top mask of height `1080·(1-ease)`
over panel C, and a right mask of width `panelWidth·(1-ease)` over
panel D. -/
theorem entry_ops_spec (sinPi : ℚ → ℚ) (tc : TimingConfig)
    (an : AnimationConfig) (xb xc xd t : ℚ)
    (h0 : tc.t1 + tc.t2 ≤ t) (h1 : t - (tc.t1 + tc.t2) < tc.t3)
    (h4 : 0 ≤ tc.t4) (hH : 0 ≤ tc.tHold) :
    renderFrame sinPi tc an xb xc xd t =
      DrawOp.clear ::
        ([.panel 0 xb 0 (.num 1), .panel 1 xc 0 (.num 1),
          .panel 2 xd 0 (.num 1),
          .maskRect (.num 0) (.num 0)
            (.num (panelWidth * (1 - (1 - (1 - (t - (tc.t1 + tc.t2)) / tc.t3) ^ 3))))
            (.num 1080),
          .maskRect (.num panelWidth) (.num 0) (.num panelWidth)
            (.num (1080 * (1 - (1 - (1 - (t - (tc.t1 + tc.t2)) / tc.t3) ^ 3)))),
          .maskRect
            (.num (1920 - panelWidth * (1 - (1 - (1 - (t - (tc.t1 + tc.t2)) / tc.t3) ^ 3))))
            (.num 0)
            (.num (panelWidth * (1 - (1 - (1 - (t - (tc.t1 + tc.t2)) / tc.t3) ^ 3))))
            (.num 1080)] ++ fadeOps tc an t) := by
  have hintro : introOps tc t = [] := by
    rw [introOps]
    exact if_neg (not_lt.mpr h0)
  rw [renderFrame, hintro,
    collageOps_entry sinPi tc an xb xc xd t h0 h1 h4 hH, List.nil_append]

/-- Witness for C8's amended statement at `t = 13/5` (entry progress
`1/5`, `ease = 61/125`). -/
theorem entry_ops_spec_witness :
    renderFrame (fun _ => 0) ⟨2, 1/2, 1/2, 3/2, 1, 1, 5/2, 1⟩
      ⟨27/25, .black⟩ 20 50 80 (13/5) =
      [DrawOp.clear,
       .panel 0 20 0 (.num 1), .panel 1 50 0 (.num 1),
       .panel 2 80 0 (.num 1),
       .maskRect (.num 0) (.num 0) (.num (8192/25)) (.num 1080),
       .maskRect (.num panelWidth) (.num 0) (.num panelWidth)
         (.num (13824/25)),
       .maskRect (.num (39808/25)) (.num 0) (.num (8192/25))
         (.num 1080)] := by
  rw [entry_ops_spec (fun _ => 0) ⟨2, 1/2, 1/2, 3/2, 1, 1, 5/2, 1⟩
    ⟨27/25, .black⟩ 20 50 80 (13/5) (by norm_num) (by norm_num)
    (by norm_num) (by norm_num)]
  norm_num [fadeOps, totalDuration, panelWidth]
